import Mathlib

/-!
# Verification of the Financial-Advisor-Agent orchestration core

Shallow embedding of the orchestration core of the repository
(task manager, resumption matcher, retrieval index, instruction
evaluation, polling service) as given by the code in
`docs/MVP_PLAN.md`, `docs/FULL_IMPLEMENTATION.md` and
`backend/create_tables.sql`, together with theorems settling the
claims of the specification against it.
-/

namespace FinAdvisor

/-! ## Context maps

Task contexts and document metadata are Python `dict`s with string keys.
We embed them as association lists whose observable behaviour is
first-match lookup. -/

/-- A Python dict with string keys and string-rendered values. -/
abbrev Ctx := List (String × String)

/-- `d.get(k)`: first binding of `k`, if any. -/
def ctxGet (c : Ctx) (k : String) : Option String :=
  (c.find? (fun p => p.1 == k)).map (fun p => p.2)

/-- `d.get(k, default)`. -/
def ctxGetD (c : Ctx) (k d : String) : String :=
  (ctxGet c k).getD d

/-- Python merge `\x7b**old, **new\x7d`: a key bound in `new` wins;
keys only in `old` keep their bindings. -/
def ctxMerge (old new : Ctx) : Ctx :=
  old.filter (fun p => (ctxGet new p.1).isNone) ++ new

/-! ## Task model and TaskManager (`docs/MVP_PLAN.md`, app/services/task_manager.py) -/

/-- `TaskStatus` enumeration (values used by the code: PENDING,
IN_PROGRESS, WAITING, COMPLETED; FAILED per the model's state set). -/
inductive TaskStatus where
  | PENDING
  | IN_PROGRESS
  | WAITING
  | COMPLETED
  | FAILED
deriving DecidableEq, Repr

/-- A row of the tasks table, as used by `TaskManager`. -/
structure Task where
  id : String
  user_id : String
  description : String
  status : TaskStatus
  context : Ctx
deriving DecidableEq, Repr

/-- `if context: task.context = \x7b**task.context, **context\x7d`. -/
def applyPatch (c : Ctx) : Option Ctx → Ctx
  | some p => ctxMerge c p
  | none => c

/-- `TaskManager.update_task_status(task_id, status, context)`:
finds the first task with the given id; if found, sets its status
unconditionally and merges the optional context patch; if no task has
that id, does nothing.  The operation cannot fail. -/
def update_task_status : List Task → String → TaskStatus → Option Ctx → List Task
  | [], _, _, _ => []
  | t :: ts, task_id, status, contextPatch =>
    if t.id = task_id then
      { t with status := status, context := applyPatch t.context contextPatch } :: ts
    else
      t :: update_task_status ts task_id status contextPatch

/-- `TaskManager.get_waiting_tasks(user_id)`: all tasks of the user in
status WAITING, in store order. -/
def get_waiting_tasks (db : List Task) (user_id : String) : List Task :=
  db.filter (fun t => t.user_id == user_id && t.status == TaskStatus.WAITING)

/-- `needle` occurs as a contiguous run inside `hay`. -/
def listContains (needle hay : List Char) : Bool :=
  match hay with
  | [] => needle.isEmpty
  | _ :: t => needle.isPrefixOf hay || listContains needle t

/-- Python `str.lower()`, character-wise (the sender identities and
addresses involved are ASCII). -/
def strLower (s : String) : String := String.mk (s.data.map Char.toLower)

/-- Python substring test `sub in hay`. -/
def strContains (hay sub : String) : Bool :=
  listContains sub.data hay.data

/-- Body of the matching loop in `find_task_for_email`:
`task.context.get('waiting_for') == 'email_reply'` and
`task.context.get('expected_from', '').lower() in email_from.lower()`. -/
def matchesEmail (t : Task) (email_from : String) : Bool :=
  ctxGet t.context "waiting_for" == some "email_reply" &&
  strContains (strLower email_from) (strLower (ctxGetD t.context "expected_from" ""))

/-- The `for task in tasks` loop of `find_task_for_email`: returns the
first task satisfying the match test, else `None`. -/
def find_first_matching : List Task → String → Option Task
  | [], _ => none
  | t :: ts, email_from =>
    if matchesEmail t email_from then some t else find_first_matching ts email_from

/-- `TaskManager.find_task_for_email(user_id, email_from, email_subject)`.
The subject is accepted but unused by the code. -/
def find_task_for_email (db : List Task) (user_id email_from email_subject : String) :
    Option Task :=
  find_first_matching (get_waiting_tasks db user_id) email_from


/-! ## Task resumption (`docs/MVP_PLAN.md`, resume_task)

`resume_task` first sets the task to IN_PROGRESS and commits, then runs
the agent; if the agent call raises, the exception propagates (it is
caught only at the poll-all-users level) and no further status is
committed; on success it commits COMPLETED when `is_task_complete(result)`
holds and WAITING otherwise.  We model the agent call's outcome
explicitly and record the sequence of committed statuses. -/

/-- Outcome of `agent.ainvoke` inside `resume_task`: a normal result,
summarized by the `is_task_complete` verdict on it, or a raised
unrecoverable error. -/
inductive AgentOutcome where
  | ok (complete : Bool)
  | error
deriving DecidableEq, Repr

/-- The statuses committed by `resume_task`, in commit order. -/
def resume_task_trace (o : AgentOutcome) : List TaskStatus :=
  TaskStatus.IN_PROGRESS ::
    (match o with
     | AgentOutcome.ok complete =>
        [if complete then TaskStatus.COMPLETED else TaskStatus.WAITING]
     | AgentOutcome.error => [])

/-- The task's durable status once the resumption turn ends: the last
committed status. -/
def resume_task_final (o : AgentOutcome) : TaskStatus :=
  (resume_task_trace o).getLastD TaskStatus.PENDING

/-! ## Instruction manager (`docs/MVP_PLAN.md`, app/services/instruction_manager.py) -/

/-- A row of the ongoing-instructions table. -/
structure OngoingInstruction where
  id : String
  user_id : String
  instruction : String
  active : Bool
deriving DecidableEq, Repr

/-- `InstructionManager.get_active_instructions(user_id)`: the
instruction *texts* of the user's active instructions — ids are
dropped by the trailing list comprehension. -/
def get_active_instructions (db : List OngoingInstruction) (user_id : String) :
    List String :=
  (db.filter (fun i => i.user_id == user_id && i.active)).map
    (fun i => i.instruction)

/-- Renames instruction ids, leaving everything else untouched. -/
def relabelIds (f : String → String) (i : OngoingInstruction) : OngoingInstruction :=
  { i with id := f i.id }

/-- An inbound email as handled by the polling service
(`email['from']`, `email['subject']`). -/
structure Email where
  from_ : String
  subject : String
deriving DecidableEq, Repr

/-- The prompt `PollingService.evaluate_instructions` sends to the
agent: the email's sender and subject plus the bare instruction texts;
the agent is asked to act or answer NO_ACTION_NEEDED. -/
def evaluate_instructions_prompt (email : Email) (instructions : List String) : String :=
  "New email received:\nFrom: " ++ email.from_ ++ "\nSubject: " ++ email.subject ++
  "\n\nActive ongoing instructions:\n" ++
  String.intercalate "\n" (instructions.map (fun inst => "- " ++ inst)) ++
  "\n\nDo any of these instructions apply to this email?\n" ++
  "If yes, execute the appropriate action.\nIf no, respond with NO_ACTION_NEEDED."

/-! ## Polling service (`docs/MVP_PLAN.md`, PollingService.poll_gmail) and
Gmail webhook (`docs/FULL_IMPLEMENTATION.md`, GmailWebhookManager). -/

/-- An inbound event as seen by the poller, with its observation time
in minutes. -/
structure InboundEvent where
  eventId : String
  observedAt : Nat
deriving DecidableEq, Repr

/-- The poller's look-back window: `timedelta(minutes=5)`. -/
def poll_window : Nat := 5

/-- `PollingService.poll_gmail`: the set of events fetched in a cycle
running at time `now` — the Gmail query `after:(now - 5 minutes)`.
No per-channel cursor is read or written. -/
def poll_gmail_fetch (now : Nat) (mailbox : List InboundEvent) : List InboundEvent :=
  mailbox.filter (fun e => now - poll_window ≤ e.observedAt)

/-- One entry of the Gmail history listing: the messages added. -/
structure HistoryChange where
  messagesAdded : List String
deriving DecidableEq, Repr

/-- Observable steps of `GmailWebhookManager.handle_notification`. -/
inductive WebhookStep where
  | processEmail (msgId : String)
  | advanceHistoryId (historyId : Nat)
deriving DecidableEq, Repr

/-- Whether a step is a message-processing step. -/
def WebhookStep.isProcess : WebhookStep → Bool
  | WebhookStep.processEmail _ => true
  | WebhookStep.advanceHistoryId _ => false

/-- `GmailWebhookManager.handle_notification`: process every message
added in the history fetched since the stored `last_history_id`, then
set `last_history_id` to the notification's history id and commit. -/
def handle_notification_trace (history : List HistoryChange) (notifHistoryId : Nat) :
    List WebhookStep :=
  ((history.map (fun c => c.messagesAdded)).flatten.map WebhookStep.processEmail) ++
    [WebhookStep.advanceHistoryId notifHistoryId]

/-! ## Retrieval index
(`backend/create_tables.sql`, table `document_embeddings`;
`docs/MVP_PLAN.md`, app/rag/retrieval.py `semantic_search`).

The embedding provider and pgvector's distance computation are external
capabilities; the search is therefore parametrized by the query's
embedding vector and the distance function.  `created_at` is kept as an
abstract timestamp; following the SQL schema the row has *no*
`updated_at` column. -/

/-- A row of the `document_embeddings` table. -/
structure DocumentEmbedding (V : Type) where
  id : String
  user_id : String
  content : String
  embedding : V
  doc_metadata : Ctx
  source_type : String
  source_id : String
  created_at : Nat
deriving DecidableEq, Repr

/-- One element of the list returned by `semantic_search`. -/
structure SearchResult where
  content : String
  source_type : String
  source_id : String
  metadata : Ctx
  similarity : ℚ
deriving DecidableEq, Repr

/-- Insert into a list kept ascending in `key`, before any element of
equal key (so the overall sort is stable). -/
def insertByKey {α : Type} (key : α → ℚ) (x : α) : List α → List α
  | [] => [x]
  | y :: ys => if key x ≤ key y then x :: y :: ys else y :: insertByKey key x ys

/-- Stable sort ascending in `key` — the `ORDER BY cosine_distance` of
the search query. -/
def sortByKey {α : Type} (key : α → ℚ) : List α → List α
  | [] => []
  | x :: xs => insertByKey key x (sortByKey key xs)

/-- The candidate rows selected by `semantic_search`, before projection:
filter to the caller's `user_id`, apply the optional source-type filter
and the optional metadata equality filters, order by cosine distance to
the query embedding ascending, limit to `top_k`. -/
def semantic_search_docs {V : Type} (dist : V → V → ℚ)
    (db : List (DocumentEmbedding V)) (query_embedding : V) (user_id : String)
    (top_k : Nat) (source_type : Option String) (metadata_filter : Option Ctx) :
    List (DocumentEmbedding V) :=
  let s1 := db.filter (fun d => d.user_id == user_id)
  let s2 := match source_type with
            | some st => s1.filter (fun d => d.source_type == st)
            | none => s1
  let s3 := match metadata_filter with
            | some mf =>
                s2.filter (fun d => mf.all (fun kv => ctxGet d.doc_metadata kv.1 == some kv.2))
            | none => s2
  (sortByKey (fun d => dist query_embedding d.embedding) s3).take top_k

/-- `semantic_search`: the selected rows projected to result records,
with `similarity = 1 - cosine_distance`. -/
def semantic_search {V : Type} (dist : V → V → ℚ)
    (db : List (DocumentEmbedding V)) (query_embedding : V) (user_id : String)
    (top_k : Nat) (source_type : Option String) (metadata_filter : Option Ctx) :
    List SearchResult :=
  (semantic_search_docs dist db query_embedding user_id top_k source_type metadata_filter).map
    (fun d => { content := d.content, source_type := d.source_type,
                source_id := d.source_id, metadata := d.doc_metadata,
                similarity := 1 - dist query_embedding d.embedding })

/-- The key of the unique index `idx_document_embeddings_unique_source`:
`(user_id, source_type, source_id)`. -/
def docKey {V : Type} (d : DocumentEmbedding V) : String × String × String :=
  (d.user_id, d.source_type, d.source_id)

/-- Modelled from the spec: `store_document_embedding` (called by the
ingestion pipeline in `docs/MVP_PLAN.md` but not itself present in the
repository) writes/overwrites the row keyed by
(tenant, sourceType, sourceId), the key of the unique index
`idx_document_embeddings_unique_source` of `create_tables.sql`: any
previously stored row with that key is replaced by the new row. -/
def store_document_embedding {V : Type}
    (db : List (DocumentEmbedding V)) (d : DocumentEmbedding V) :
    List (DocumentEmbedding V) :=
  db.filter (fun r => !(decide (docKey r = docKey d))) ++ [d]

/-! ## Concrete instances used to evaluate the embedding -/

/-- Dot product of rational vectors. -/
def dotQ : List ℚ → List ℚ → ℚ
  | [], _ => 0
  | _, [] => 0
  | a :: as, b :: bs => a * b + dotQ as bs

/-- Cosine distance restricted to unit vectors, where it coincides with
`1 - dot product`. -/
def cosineDistUnit (a b : List ℚ) : ℚ := 1 - dotQ a b

/-- A task that already reached the terminal status COMPLETED. -/
def c1TerminalTask : Task :=
  { id := "t1", user_id := "u", description := "schedule with Sara",
    status := TaskStatus.COMPLETED, context := [("step", "done")] }

/-- A task in PENDING, used to exercise a legal-looking update. -/
def c1OtherTask : Task :=
  { id := "t0", user_id := "u", description := "unrelated",
    status := TaskStatus.PENDING, context := [] }

/-- First of two WAITING tasks expecting mail from the same sender. -/
def c3Task1 : Task :=
  { id := "t1", user_id := "u", description := "schedule with Sara",
    status := TaskStatus.WAITING,
    context := [("waiting_for", "email_reply"), ("expected_from", "sara@x.com")] }

/-- Second WAITING task expecting mail from the same sender. -/
def c3Task2 : Task :=
  { id := "t2", user_id := "u", description := "follow up with Sara",
    status := TaskStatus.WAITING,
    context := [("waiting_for", "email_reply"), ("expected_from", "sara@x.com")] }

/-- The WAITING task of the resumption-correctness scenario. -/
def c4SaraTask : Task :=
  { id := "t1", user_id := "u", description := "schedule with Sara",
    status := TaskStatus.WAITING,
    context := [("waiting_for", "email_reply"), ("expected_from", "sara@x.com")] }

/-- A stored document of tenant A. -/
def c2DocA : DocumentEmbedding (List ℚ) :=
  { id := "d1", user_id := "A", content := "meeting notes for A",
    embedding := [1], doc_metadata := [], source_type := "email",
    source_id := "m1", created_at := 1 }

/-- A stored document of tenant B. -/
def c2DocB : DocumentEmbedding (List ℚ) :=
  { id := "d2", user_id := "B", content := "meeting notes for B",
    embedding := [1], doc_metadata := [], source_type := "email",
    source_id := "m2", created_at := 2 }

/-- First version of an ingested document. -/
def c5DocV1 : DocumentEmbedding (List ℚ) :=
  { id := "d1", user_id := "A", content := "Subject: hello (v1)",
    embedding := [1], doc_metadata := [], source_type := "email",
    source_id := "msg-1", created_at := 1 }

/-- Re-ingested version of the same source document: same
(user_id, source_type, source_id) key, different content and
embedding. -/
def c5DocV2 : DocumentEmbedding (List ℚ) :=
  { id := "d2", user_id := "A", content := "Subject: hello (v2, edited)",
    embedding := [0, 1], doc_metadata := [], source_type := "email",
    source_id := "msg-1", created_at := 2 }

/-- The earlier-created of two equally similar documents. -/
def c7DocOld : DocumentEmbedding (List ℚ) :=
  { id := "d-old", user_id := "A", content := "old duplicate",
    embedding := [1], doc_metadata := [], source_type := "email",
    source_id := "old", created_at := 1 }

/-- The later-created of two equally similar documents. -/
def c7DocNew : DocumentEmbedding (List ℚ) :=
  { id := "d-new", user_id := "A", content := "new duplicate",
    embedding := [1], doc_metadata := [], source_type := "email",
    source_id := "new", created_at := 2 }

/-- An event observed at minute 20: never processed by any earlier
cycle (the last fully processed event is from minute 10), but already
outside the 5-minute window of a cycle running at minute 100. -/
def c8StaleEvent : InboundEvent := { eventId := "m-stale", observedAt := 20 }

/-! ## Lemmas about the context map -/

/-! Basic lemmas about the context map. -/

theorem ctxGet_nil (k : String) : ctxGet [] k = none := rfl

theorem ctxGet_cons (p : String × String) (c : Ctx) (k : String) :
    ctxGet (p :: c) k = if p.1 = k then some p.2 else ctxGet c k := by
  simp only [ctxGet, List.find?]
  by_cases h : p.1 = k
  · simp [h]
  · have hb : (p.1 == k) = false := by simp [h]
    simp [h, hb]

theorem ctxGet_append (a b : Ctx) (k : String) :
    ctxGet (a ++ b) k =
      match ctxGet a k with
      | some v => some v
      | none => ctxGet b k := by
  induction a with
  | nil => simp [ctxGet_nil]
  | cons p a ih =>
    rw [List.cons_append, ctxGet_cons, ctxGet_cons]
    by_cases h : p.1 = k
    · simp [h]
    · simp [h, ih]

theorem ctxGet_filtered_of_patched (old new : Ctx) (k : String) (v : String)
    (hnew : ctxGet new k = some v) :
    ctxGet (old.filter (fun p => (ctxGet new p.1).isNone)) k = none := by
  induction old with
  | nil => rfl
  | cons p old ih =>
    rw [List.filter_cons]
    by_cases hp : (ctxGet new p.1).isNone = true
    · have hpk : p.1 ≠ k := by
        intro h
        rw [h, hnew] at hp
        simp at hp
      simp only [hp, if_true, ctxGet_cons, hpk, if_false]
      exact ih
    · simp only [hp, if_false]
      exact ih

theorem ctxGet_filtered_of_unpatched (old new : Ctx) (k : String)
    (hnew : ctxGet new k = none) :
    ctxGet (old.filter (fun p => (ctxGet new p.1).isNone)) k = ctxGet old k := by
  induction old with
  | nil => rfl
  | cons p old ih =>
    rw [List.filter_cons]
    by_cases hpk : p.1 = k
    · have hp : (ctxGet new p.1).isNone = true := by rw [hpk, hnew]; rfl
      simp [hp, ctxGet_cons, hpk, hnew]
    · by_cases hp : (ctxGet new p.1).isNone = true
      · simp [hp, ctxGet_cons, hpk, ih]
      · simp [hp, ctxGet_cons, hpk, ih]

/-- Last-write-wins lookup through a merge: a key bound in the patch
takes the patch's value; otherwise the old binding survives. -/
theorem ctxGet_ctxMerge (old new : Ctx) (k : String) :
    ctxGet (ctxMerge old new) k =
      match ctxGet new k with
      | some v => some v
      | none => ctxGet old k := by
  unfold ctxMerge
  rw [ctxGet_append]
  cases hnew : ctxGet new k with
  | some v =>
    rw [ctxGet_filtered_of_patched old new k v hnew]
  | none =>
    rw [ctxGet_filtered_of_unpatched old new k hnew]
    cases ctxGet old k <;> rfl

/-! ## Lemmas about the retrieval ordering -/

theorem mem_insertByKey {α : Type} (key : α → ℚ) (x : α) (l : List α) (a : α) :
    a ∈ insertByKey key x l ↔ a = x ∨ a ∈ l := by
  induction l with
  | nil => simp [insertByKey]
  | cons y ys ih =>
    unfold insertByKey
    by_cases h : key x ≤ key y
    · simp [h]
    · simp only [h, if_false, List.mem_cons, ih]
      tauto

theorem mem_sortByKey {α : Type} (key : α → ℚ) (l : List α) (a : α) :
    a ∈ sortByKey key l ↔ a ∈ l := by
  induction l with
  | nil => simp [sortByKey]
  | cons x xs ih =>
    simp [sortByKey, mem_insertByKey, ih]

theorem pairwise_insertByKey {α : Type} (key : α → ℚ) (x : α) (l : List α)
    (h : l.Pairwise (fun a b => key a ≤ key b)) :
    (insertByKey key x l).Pairwise (fun a b => key a ≤ key b) := by
  induction l with
  | nil => simp [insertByKey]
  | cons y ys ih =>
    unfold insertByKey
    rcases List.pairwise_cons.mp h with ⟨hy, hys⟩
    by_cases hxy : key x ≤ key y
    · simp only [hxy, if_true]
      refine List.pairwise_cons.mpr ⟨?_, h⟩
      intro b hb
      rcases List.mem_cons.mp hb with hb | hb
      · exact hb ▸ hxy
      · exact le_trans hxy (hy b hb)
    · simp only [hxy, if_false]
      refine List.pairwise_cons.mpr ⟨?_, ih hys⟩
      intro b hb
      rcases (mem_insertByKey key x ys b).mp hb with hb | hb
      · exact hb ▸ le_of_not_le hxy
      · exact hy b hb

theorem pairwise_sortByKey {α : Type} (key : α → ℚ) (l : List α) :
    (sortByKey key l).Pairwise (fun a b => key a ≤ key b) := by
  induction l with
  | nil => simp [sortByKey]
  | cons x xs ih => exact pairwise_insertByKey key x _ ih

/-- Every row selected by `semantic_search_docs` comes from the
tenant-filtered candidate set. -/
theorem user_id_of_mem_semantic_search_docs {V : Type} (dist : V → V → ℚ)
    (db : List (DocumentEmbedding V)) (qe : V) (u : String) (k : Nat)
    (st : Option String) (mf : Option Ctx) (d : DocumentEmbedding V)
    (hd : d ∈ semantic_search_docs dist db qe u k st mf) :
    d.user_id = u := by
  unfold semantic_search_docs at hd
  have h3 := (mem_sortByKey _ _ d).mp (List.take_subset k _ hd)
  have h1 : d ∈ db.filter (fun d => d.user_id == u) := by
    cases st with
    | none =>
      cases mf with
      | none => exact h3
      | some m => exact List.mem_of_mem_filter h3
    | some s =>
      cases mf with
      | none => exact List.mem_of_mem_filter h3
      | some m => exact List.mem_of_mem_filter (List.mem_of_mem_filter h3)
  have := (List.mem_filter.mp h1).2
  simpa using this

/-! ## Claim C1 — task state-machine validation -/

/-- **C1** counterexample.  A task whose status is the terminal
COMPLETED is transitioned to PENDING by `update_task_status`: the call
returns normally (there is no `InvalidTransition` anywhere in the code),
the status is overwritten and the context patch is merged — refuting
the claim that every transition attempt out of COMPLETED/FAILED fails
and performs no mutation. -/
theorem update_task_status_mutates_terminal :
    update_task_status [c1TerminalTask] "t1" TaskStatus.PENDING (some [("note", "x")]) =
      [{ id := "t1", user_id := "u", description := "schedule with Sara",
         status := TaskStatus.PENDING, context := [("step", "done"), ("note", "x")] }] ∧
    c1TerminalTask.status = TaskStatus.COMPLETED := by
  exact ⟨rfl, rfl⟩

/-- **C1** (amended).  `update_task_status` validates nothing: for any
stored task (whatever its current status, terminal or not) and any
target status, the call succeeds, overwrites the status, merges the
optional context patch with last-write-wins per key, and leaves the
other tasks unchanged.  No `InvalidTransition` failure exists. -/
theorem update_task_status_unvalidated :
    (∀ (pre post : List Task) (t : Task) (st : TaskStatus) (patch : Option Ctx),
      (∀ t' ∈ pre, t'.id ≠ t.id) →
      update_task_status (pre ++ t :: post) t.id st patch =
        pre ++ { t with status := st, context := applyPatch t.context patch } :: post) ∧
    (∀ (c p : Ctx) (k : String),
      ctxGet (applyPatch c (some p)) k =
        match ctxGet p k with
        | some v => some v
        | none => ctxGet c k) := by
  constructor
  · intro pre post t st patch hpre
    induction pre with
    | nil => simp [update_task_status]
    | cons t0 pre ih =>
      have h0 : t0.id ≠ t.id := hpre t0 (by simp)
      simp only [List.cons_append, update_task_status, h0, if_false, List.append_eq]
      rw [ih (fun t' ht' => hpre t' (by simp [ht']))]
  · intro c p k
    exact ctxGet_ctxMerge c p k

/-- Witness for the amended C1: the terminal task `c1TerminalTask` is
moved to IN_PROGRESS past a non-matching task. -/
theorem update_task_status_unvalidated_witness :
    update_task_status ([c1OtherTask] ++ c1TerminalTask :: []) c1TerminalTask.id
        TaskStatus.IN_PROGRESS none =
      [c1OtherTask] ++
        { c1TerminalTask with
          status := TaskStatus.IN_PROGRESS,
          context := applyPatch c1TerminalTask.context none } :: [] :=
  update_task_status_unvalidated.1 [c1OtherTask] [] c1TerminalTask
    TaskStatus.IN_PROGRESS none (by decide)

/-! ## Claim C10 — unknown task id is a silent no-op -/

/-- **C10**.  A `update_task_status` call whose task id matches no
stored task returns normally (the function is total, raising nothing)
and leaves every stored task unchanged. -/
theorem update_task_status_unknown_id_noop :
    ∀ (db : List Task) (tid : String) (st : TaskStatus) (patch : Option Ctx),
      (∀ t ∈ db, t.id ≠ tid) → update_task_status db tid st patch = db := by
  intro db tid st patch h
  induction db with
  | nil => rfl
  | cons t ts ih =>
    have ht : t.id ≠ tid := h t (by simp)
    simp only [update_task_status, ht, if_false]
    rw [ih (fun t' ht' => h t' (by simp [ht']))]

/-- Witness for C10 at a concrete store and unknown id. -/
theorem update_task_status_unknown_id_noop_witness :
    update_task_status [c1OtherTask] "no-such-task" TaskStatus.COMPLETED none =
      [c1OtherTask] :=
  update_task_status_unknown_id_noop [c1OtherTask] "no-such-task"
    TaskStatus.COMPLETED none (by decide)

/-! ## Claim C3 — ambiguous resumption matches -/

/-- **C3** counterexample.  Two WAITING tasks of the same tenant both
match the inbound mail's sender, yet `find_task_for_email` silently
returns the first of them instead of producing a
`ResumptionAmbiguityError` (no such error exists in the code). -/
theorem find_task_for_email_ambiguous_silent_pick :
    find_task_for_email [c3Task1, c3Task2] "u" "Sara Smith <sara@x.com>" "Re: meeting" =
      some c3Task1 ∧
    matchesEmail c3Task1 "Sara Smith <sara@x.com>" = true ∧
    matchesEmail c3Task2 "Sara Smith <sara@x.com>" = true := by
  refine ⟨by rfl, by rfl, by rfl⟩

/-- **C3** (amended).  When several WAITING tasks match an inbound
event, the matcher raises no error and silently selects the first
matching task in store order: `find_task_for_email` returns exactly the
first element of the tenant's WAITING list satisfying the match test.
Being a pure query, it mutates no task. -/
theorem find_task_for_email_picks_first :
    ∀ (db : List Task) (u from_ subj : String),
      find_task_for_email db u from_ subj =
        (get_waiting_tasks db u).find? (fun t => matchesEmail t from_) := by
  intro db u from_ subj
  unfold find_task_for_email
  generalize get_waiting_tasks db u = l
  induction l with
  | nil => rfl
  | cons t ts ih =>
    cases h : matchesEmail t from_
    · simp [find_first_matching, List.find?, h, ih]
    · simp [find_first_matching, List.find?, h]

/-! ## Claim C4 — the resumption matching rule -/

/-- **C4**.  For a tenant's WAITING task carrying an `expected_from`
address, the matcher selects the task for an inbound mail event exactly
when `waiting_for` is `email_reply` (the mail channel class — any other
value, e.g. `calendar_response`, never matches a mail event) and the
expected address is a case-insensitive substring of the event's sender
identity. -/
theorem find_task_for_email_matching_rule :
    ∀ (t : Task) (u from_ subj ef : String),
      t.user_id = u → t.status = TaskStatus.WAITING →
      ctxGet t.context "expected_from" = some ef →
      (find_task_for_email [t] u from_ subj = some t ↔
        (ctxGet t.context "waiting_for" = some "email_reply" ∧
         strContains (strLower from_) (strLower ef) = true)) := by
  intro t u from_ subj ef hu hs hef
  have hd : ctxGetD t.context "expected_from" "" = ef := by
    unfold ctxGetD
    rw [hef]
    rfl
  have hw : get_waiting_tasks [t] u = [t] := by
    simp [get_waiting_tasks, hu, hs]
  have hmatch : matchesEmail t from_ = true ↔
      (ctxGet t.context "waiting_for" = some "email_reply" ∧
       strContains (strLower from_) (strLower ef) = true) := by
    unfold matchesEmail
    rw [hd, Bool.and_eq_true]
    constructor
    · rintro ⟨h1, h2⟩
      exact ⟨by simpa using h1, h2⟩
    · rintro ⟨h1, h2⟩
      exact ⟨by simpa using h1, h2⟩
  unfold find_task_for_email
  rw [hw]
  unfold find_first_matching
  cases hb : matchesEmail t from_
  · rw [if_neg (by simp [hb])]
    constructor
    · intro h
      exact absurd h (by simp [find_first_matching])
    · intro h
      rw [hmatch.mpr h] at hb
      exact absurd hb (by simp)
  · rw [if_pos (by simp [hb])]
    exact ⟨fun _ => hmatch.mp hb, fun _ => rfl⟩

/-- Witness for C4: the task expecting `sara@x.com` on `email_reply` is
selected for the mail event from `"Sara Smith <sara@x.com>"` and not
for one from an unrelated address. -/
theorem find_task_for_email_matching_rule_witness :
    find_task_for_email [c4SaraTask] "u" "Sara Smith <sara@x.com>" "Re: meeting" =
      some c4SaraTask ∧
    find_task_for_email [c4SaraTask] "u" "bob@unrelated.org" "Re: meeting" ≠
      some c4SaraTask := by
  constructor
  · exact (find_task_for_email_matching_rule c4SaraTask "u" "Sara Smith <sara@x.com>"
      "Re: meeting" "sara@x.com" rfl rfl rfl).mpr ⟨rfl, by decide⟩
  · intro h
    have hc := (find_task_for_email_matching_rule c4SaraTask "u" "bob@unrelated.org"
      "Re: meeting" "sara@x.com" rfl rfl rfl).mp h
    exact absurd hc.2 (by decide)

/-! ## Claim C2 — tenant isolation of semantic search -/

/-- **C2**.  Whatever the stored corpus (documents of arbitrarily many
tenants), the query embedding, the distance function, `topK` and the
optional source-type and metadata filters, every row selected by
`semantic_search` belongs to the querying tenant: the candidate set is
filtered to `user_id` before ranking, so no other tenant's document is
ever returned. -/
theorem semantic_search_tenant_isolation :
    ∀ {V : Type} (dist : V → V → ℚ) (db : List (DocumentEmbedding V)) (qe : V)
      (u : String) (k : Nat) (st : Option String) (mf : Option Ctx),
      (semantic_search_docs dist db qe u k st mf).all (fun d => d.user_id == u) = true := by
  intro V dist db qe u k st mf
  rw [List.all_eq_true]
  intro d hd
  simpa using user_id_of_mem_semantic_search_docs dist db qe u k st mf d hd

/-! ## Claim C5 — upsert keyed uniqueness and idempotence -/

/-- **C5**.  After any sequence of upserts, the rows holding the key
(user id, source type, source id) of the last upsert are exactly the
one row written by it; upserting the same key twice keeps only the
latest content and embedding, and re-ingesting identical content is
idempotent. -/
theorem store_document_embedding_upsert :
    ∀ {V : Type} (db : List (DocumentEmbedding V))
      (d1 d2 : DocumentEmbedding V),
      docKey d1 = docKey d2 →
      ((store_document_embedding db d2).filter
          (fun r => decide (docKey r = docKey d2)) = [d2] ∧
        store_document_embedding (store_document_embedding db d1) d2 =
          store_document_embedding db d2 ∧
        store_document_embedding (store_document_embedding db d2) d2 =
          store_document_embedding db d2) := by
  intro V db d1 d2 hkey
  have hfilter : ∀ (l : List (DocumentEmbedding V)) (d : DocumentEmbedding V),
      (l.filter (fun r => !(decide (docKey r = docKey d)))).filter
          (fun r => decide (docKey r = docKey d)) = [] := by
    intro l d
    rw [List.filter_filter, List.filter_eq_nil_iff]
    intro a _
    cases h : decide (docKey a = docKey d) <;> simp [h]
  have hdrop : ∀ (l : List (DocumentEmbedding V)),
      (l.filter (fun r => !(decide (docKey r = docKey d1)))).filter
          (fun r => !(decide (docKey r = docKey d2))) =
        l.filter (fun r => !(decide (docKey r = docKey d2))) := by
    intro l
    rw [List.filter_filter]
    apply List.filter_congr
    intro a _
    rw [hkey]
    cases h : decide (docKey a = docKey d2) <;> simp [h]
  refine ⟨?_, ?_, ?_⟩
  · unfold store_document_embedding
    rw [List.filter_append, hfilter]
    simp
  · unfold store_document_embedding
    rw [List.filter_append]
    have h1 : ([d1].filter (fun r => !(decide (docKey r = docKey d2)))) = [] := by
      simp [List.filter, hkey]
    rw [h1, hdrop, List.append_nil]
  · unfold store_document_embedding
    rw [List.filter_append]
    have h2 : ([d2].filter (fun r => !(decide (docKey r = docKey d2)))) = [] := by
      simp [List.filter]
    have hdrop2 : ∀ (l : List (DocumentEmbedding V)),
        (l.filter (fun r => !(decide (docKey r = docKey d2)))).filter
            (fun r => !(decide (docKey r = docKey d2))) =
          l.filter (fun r => !(decide (docKey r = docKey d2))) := by
      intro l
      rw [List.filter_filter]
      apply List.filter_congr
      intro a _
      cases h : decide (docKey a = docKey d2) <;> simp [h]
    rw [h2, hdrop2, List.append_nil]

/-- Witness for C5: re-ingesting the same source message with edited
content leaves exactly one row, the latest one. -/
theorem store_document_embedding_upsert_witness :
    ((store_document_embedding [] c5DocV2).filter
        (fun r => decide (docKey r = docKey c5DocV2)) = [c5DocV2] ∧
      store_document_embedding (store_document_embedding [] c5DocV1) c5DocV2 =
        store_document_embedding [] c5DocV2 ∧
      store_document_embedding (store_document_embedding [] c5DocV2) c5DocV2 =
        store_document_embedding [] c5DocV2) :=
  store_document_embedding_upsert [] c5DocV1 c5DocV2 (by decide)

/-! ## Claim C6 — resumption failure policy -/

/-- **C6** counterexample.  `resume_task` commits IN_PROGRESS before
running the agent and installs no exception handler: when the agent
raises an unrecoverable error the task's durable status at the end of
the turn is IN_PROGRESS — not WAITING as the claim requires — and no
retry count exists in the code at all. -/
theorem resume_task_error_leaves_in_progress :
    resume_task_final AgentOutcome.error = TaskStatus.IN_PROGRESS ∧
    TaskStatus.IN_PROGRESS ≠ TaskStatus.WAITING ∧
    TaskStatus.IN_PROGRESS ≠ TaskStatus.FAILED := by
  decide

/-- **C6** (amended).  `resume_task` first commits IN_PROGRESS; on a
successful agent run it ends the turn in COMPLETED (when
`is_task_complete` holds) or WAITING (otherwise) and never in FAILED —
there is no bounded retry count; on an unrecoverable agent error the
exception propagates and the task is left IN_PROGRESS. -/
theorem resume_task_status_contract :
    ∀ o : AgentOutcome,
      (resume_task_trace o).head? = some TaskStatus.IN_PROGRESS ∧
      (resume_task_final o = TaskStatus.COMPLETED ↔ o = AgentOutcome.ok true) ∧
      (resume_task_final o = TaskStatus.WAITING ↔ o = AgentOutcome.ok false) ∧
      (resume_task_final o = TaskStatus.IN_PROGRESS ↔ o = AgentOutcome.error) ∧
      resume_task_final o ≠ TaskStatus.FAILED := by
  intro o
  cases o with
  | ok c => cases c <;> decide
  | error => decide

/-! ## Claim C7 — ranking of semantic search results -/

/-- Rows selected by `semantic_search_docs` come out ordered by
ascending distance to the query embedding. -/
theorem pairwise_semantic_search_docs {V : Type} (dist : V → V → ℚ)
    (db : List (DocumentEmbedding V)) (qe : V) (u : String) (k : Nat)
    (st : Option String) (mf : Option Ctx) :
    (semantic_search_docs dist db qe u k st mf).Pairwise
      (fun a b => dist qe a.embedding ≤ dist qe b.embedding) := by
  unfold semantic_search_docs
  exact List.Pairwise.sublist (List.take_sublist _ _)
    (pairwise_sortByKey (fun d : DocumentEmbedding V => dist qe d.embedding) _)

/-- **C7** counterexample.  Two documents of the same tenant with
identical embeddings (hence identical cosine similarity to any query)
but different creation times are returned in store order, the
earlier-created first: no recency tie-break exists — indeed the
`document_embeddings` table has a `created_at` column but no
`updated_at` column at all. -/
theorem semantic_search_no_recency_tiebreak :
    (semantic_search cosineDistUnit [c7DocOld, c7DocNew] [1] "A" 5 none none).map
        (fun r => r.source_id) = ["old", "new"] ∧
    (semantic_search cosineDistUnit [c7DocOld, c7DocNew] [1] "A" 5 none none).map
        (fun r => r.similarity) = [1, 1] ∧
    c7DocOld.created_at < c7DocNew.created_at := by
  have hs : semantic_search_docs cosineDistUnit [c7DocOld, c7DocNew] [1] "A" 5 none none
      = [c7DocOld, c7DocNew] := by
    show (sortByKey (fun d => cosineDistUnit [1] d.embedding)
        [c7DocOld, c7DocNew]).take 5 = [c7DocOld, c7DocNew]
    simp only [c7DocOld, c7DocNew, sortByKey, insertByKey]
    rw [if_pos (le_refl _)]
    rfl
  have hsim : (1 : ℚ) - cosineDistUnit [1] [1] = 1 := by
    norm_num [cosineDistUnit, dotQ]
  refine ⟨?_, ?_, by decide⟩
  · unfold semantic_search
    rw [hs]
    rfl
  · unfold semantic_search
    rw [hs]
    simp [c7DocOld, c7DocNew, hsim]

/-- **C7** (amended).  For every tenant, query embedding, distance
function, `topK` and filters, the result sequence contains at most
`topK` elements and is ordered by descending similarity
(`1 - distance`); no tie-break is applied — equal-similarity rows keep
the candidate order (the schema stores no `updated_at` timestamp). -/
theorem semantic_search_topk_and_ordering :
    ∀ {V : Type} (dist : V → V → ℚ) (db : List (DocumentEmbedding V)) (qe : V)
      (u : String) (k : Nat) (st : Option String) (mf : Option Ctx),
      (semantic_search dist db qe u k st mf).length ≤ k ∧
      (semantic_search dist db qe u k st mf).Pairwise
        (fun a b => b.similarity ≤ a.similarity) := by
  intro V dist db qe u k st mf
  constructor
  · unfold semantic_search semantic_search_docs
    rw [List.length_map, List.length_take]
    exact min_le_left _ _
  · unfold semantic_search
    rw [List.pairwise_map]
    refine (pairwise_semantic_search_docs dist db qe u k st mf).imp ?_
    intro a b h
    simp only
    linarith

/-! ## Claim C8 — poller cursor semantics -/

/-- **C8** counterexample.  `poll_gmail` keeps no per-channel cursor:
it fetches the trailing five-minute window.  An event observed at
minute 20 — newer than everything processed by earlier cycles (the last
processed event being from minute 10) — is *not* fetched by a cycle
running at minute 100, so a poller stalled longer than the window loses
events instead of re-processing them. -/
theorem poll_gmail_fetch_loses_old_events :
    poll_gmail_fetch 100 [c8StaleEvent] = [] ∧ 10 < c8StaleEvent.observedAt := by
  exact ⟨by rfl, by decide⟩

/-- **C8** (amended).  Each `poll_gmail` cycle at time `now` fetches
exactly the events in the trailing five-minute window — independent of
any stored cursor, so window overlap re-processes and a stall longer
than the window loses events.  The Gmail *webhook* handler, by
contrast, fetches history since the stored `last_history_id` and
advances it only after every fetched message has been processed: its
step trace is all processing steps followed by the single cursor
advance. -/
theorem poll_gmail_window_and_webhook_cursor :
    (∀ (now : Nat) (mailbox : List InboundEvent) (e : InboundEvent),
      e ∈ poll_gmail_fetch now mailbox ↔
        (e ∈ mailbox ∧ now - poll_window ≤ e.observedAt)) ∧
    (∀ (history : List HistoryChange) (n : Nat),
      (handle_notification_trace history n).getLast? =
        some (WebhookStep.advanceHistoryId n) ∧
      (handle_notification_trace history n).dropLast.all WebhookStep.isProcess = true) := by
  constructor
  · intro now mailbox e
    simp [poll_gmail_fetch, List.mem_filter]
  · intro history n
    constructor
    · unfold handle_notification_trace
      rw [List.getLast?_concat]
    · unfold handle_notification_trace
      rw [List.dropLast_concat, List.all_eq_true]
      intro a ha
      rcases List.mem_map.mp ha with ⟨m, _, rfl⟩
      rfl

/-! ## Claim C9 — instruction-id tagging of proactive actions -/

/-- **C9** counterexample.  `get_active_instructions` returns bare
instruction texts: two stores whose only difference is the instruction
id produce identical inputs to the proactive evaluation, so no
capability invocation can carry the justifying instruction's id. -/
theorem get_active_instructions_drops_ids :
    get_active_instructions
        [{ id := "inst-a", user_id := "u",
           instruction := "When someone new emails me, create a contact and a note",
           active := true }] "u" =
      get_active_instructions
        [{ id := "inst-b", user_id := "u",
           instruction := "When someone new emails me, create a contact and a note",
           active := true }] "u" ∧
    ("inst-a" : String) ≠ "inst-b" := by
  exact ⟨by rfl, by decide⟩

/-- **C9** (amended).  The proactive run receives only the *texts* of
the tenant's active instructions and a free-text prompt asking the
agent to act or answer NO_ACTION_NEEDED: both the instruction list and
the prompt are invariant under arbitrary relabelling of instruction
ids, so the output carries no instruction-id tags. -/
theorem evaluate_instructions_id_blind :
    ∀ (f : String → String) (db : List OngoingInstruction) (u : String) (email : Email),
      get_active_instructions (db.map (relabelIds f)) u = get_active_instructions db u ∧
      evaluate_instructions_prompt email (get_active_instructions (db.map (relabelIds f)) u) =
        evaluate_instructions_prompt email (get_active_instructions db u) := by
  intro f db u email
  have h : get_active_instructions (db.map (relabelIds f)) u =
      get_active_instructions db u := by
    induction db with
    | nil => rfl
    | cons i is ih =>
      simp only [get_active_instructions, List.map_cons, List.filter_cons] at ih ⊢
      cases hc : (i.user_id == u && i.active)
      · simpa [relabelIds, hc] using ih
      · simpa [relabelIds, hc] using ih
  exact ⟨h, by rw [h]⟩

end FinAdvisor
